import Mathlib

/-!
Verification of the performance-benchmark core of the renegades-performance
repository: a shallow embedding, in Lean, of

* `src/lib/performanceUtils.ts` (the 0-100 normalizer),
* the best-entry reducer and the cohort benchmark computation of
  `supabase/functions/get-performance-benchmarks/index.ts`,
* the best-overall comparator of `src/hooks/usePerformanceComparison.ts`
  (`fetchBestMetrics`) and the per-day winner selection of the SQL function
  `get_best_daily_entries`,
* the percentile / next-best computation of
  `supabase/functions/get-player-neighborhood/index.ts` (both variants
  present in the file),

followed by theorems settling the specification claims about them.

Numbers are embedded as exact rationals (`ℚ`); JavaScript `Math.round` on the
non-negative scores that occur here is round-half-up, embedded as
`jsRound q = ⌊q + 1/2⌋`.  JavaScript `Map` objects are embedded as
insertion-ordered association lists (`mapGet` / `mapSet`), and
`Array.prototype.sort` (stable by the ECMAScript specification) as a stable
insertion sort (`stableSort`).
-/

namespace Renegades

/-- JavaScript `Math.round` restricted to non-negative rationals (the only
inputs produced by this code base): round half towards positive infinity. -/
def jsRound (q : ℚ) : ℤ := (q + 1/2).floor

theorem jsRound_eq_floor (q : ℚ) : jsRound q = ⌊q + 1/2⌋ := rfl

/-! ### JavaScript `Map` embedded as an insertion-ordered association list -/

/-- `Map.get`: the value stored at key `k`, if any. -/
def mapGet {α : Type} (m : List (String × α)) (k : String) : Option α :=
  (m.find? (fun p => p.1 = k)).map Prod.snd

/-- `Map.set`: replace in place when the key is present (keeping its
insertion position), append otherwise. -/
def mapSet {α : Type} (m : List (String × α)) (k : String) (v : α) :
    List (String × α) :=
  if m.any (fun p => p.1 = k) then
    m.map (fun p => if p.1 = k then (k, v) else p)
  else
    m ++ [(k, v)]

theorem mapGet_nil {α : Type} (k : String) : mapGet ([] : List (String × α)) k = none := rfl

theorem mapGet_cons {α : Type} (p : String × α) (m : List (String × α)) (k : String) :
    mapGet (p :: m) k = if p.1 = k then some p.2 else mapGet m k := by
  by_cases h : p.1 = k <;> simp [mapGet, List.find?_cons, h]

theorem mapGet_eq_none_iff {α : Type} (m : List (String × α)) (k : String) :
    mapGet m k = none ↔ m.any (fun p => p.1 = k) = false := by
  induction m with
  | nil => simp [mapGet]
  | cons p m ih =>
    by_cases h : p.1 = k <;> simp [mapGet_cons, h, ih]

theorem mapGet_map_replace {α : Type} (m : List (String × α)) (k k2 : String) (v : α) :
    mapGet (m.map (fun p => if p.1 = k then (k, v) else p)) k2 =
      if k2 = k then (if m.any (fun p => p.1 = k) then some v else none)
      else mapGet m k2 := by
  induction m with
  | nil => by_cases h2 : k2 = k <;> simp [mapGet_nil, h2]
  | cons p m ih =>
    by_cases hp : p.1 = k
    · by_cases h2 : k2 = k
      · subst h2
        simp [mapGet_cons, hp]
      · have h2s : ¬ k = k2 := fun h => h2 h.symm
        simp only [List.map_cons, hp, if_true, mapGet_cons, h2, if_false]
        rw [ih]
        simp [h2, h2s]
    · simp only [List.map_cons, hp, if_false, mapGet_cons, List.any_cons]
      by_cases hpk2 : p.1 = k2
      · have h2 : ¬ k2 = k := fun h => hp (hpk2.trans h)
        simp [hpk2, h2]
      · rw [ih]
        cases hany : m.any (fun p => decide (p.1 = k)) <;> simp [hany, hpk2, hp]

theorem mapGet_append {α : Type} (m m2 : List (String × α)) (k : String) :
    mapGet (m ++ m2) k =
      match mapGet m k with
      | some v => some v
      | none => mapGet m2 k := by
  induction m with
  | nil => simp [mapGet_nil]
  | cons p m ih =>
    by_cases hp : p.1 = k <;> simp [List.cons_append, mapGet_cons, hp, ih]

theorem mapGet_mapSet {α : Type} (m : List (String × α)) (k k2 : String) (v : α) :
    mapGet (mapSet m k v) k2 = if k2 = k then some v else mapGet m k2 := by
  unfold mapSet
  by_cases hmem : m.any (fun p => p.1 = k)
  · rw [if_pos hmem, mapGet_map_replace]
    by_cases h2 : k2 = k <;> simp [h2, hmem]
  · rw [if_neg hmem, mapGet_append]
    have hnone : mapGet m k = none :=
      (mapGet_eq_none_iff m k).mpr (Bool.eq_false_iff.mpr hmem)
    by_cases h2 : k2 = k
    · subst h2
      simp [hnone, mapGet_cons]
    · have h2s : ¬ k = k2 := fun h => h2 h.symm
      cases hfind : mapGet m k2 <;>
        simp [hfind, mapGet_cons, h2s, h2, mapGet_nil]

/-- Keys of the map after a `mapSet`: unchanged by the replace branch,
extended by `k` in the append branch. -/
theorem mapSet_keys {α : Type} (m : List (String × α)) (k : String) (v : α) :
    (mapSet m k v).map Prod.fst = m.map Prod.fst ∨
      (mapSet m k v).map Prod.fst = m.map Prod.fst ++ [k] := by
  unfold mapSet
  by_cases hmem : m.any (fun p => p.1 = k)
  · left
    simp only [hmem, if_true, List.map_map]
    apply List.map_congr_left
    intro p _
    by_cases hp : p.1 = k <;> simp [hp]
  · right
    simp [hmem]

/-! ### JavaScript `Array.prototype.sort` embedded as a stable insertion sort

ECMAScript mandates a stable sort; with a consistent comparator any stable
sort produces the same list, so an insertion sort is a faithful embedding. -/

/-- Insert `x` before the first element `y` with `le x y`; elements comparing
equal to `x` that are already in the list stay in front of it only when they
are strictly smaller, so the original relative order of ties is preserved
(`x` comes from earlier in the input). -/
def stableInsert {α : Type} (le : α → α → Bool) (x : α) : List α → List α
  | [] => [x]
  | y :: ys => if le x y then x :: y :: ys else y :: stableInsert le x ys

/-- Stable insertion sort with respect to the boolean comparison `le`. -/
def stableSort {α : Type} (le : α → α → Bool) : List α → List α
  | [] => []
  | x :: xs => stableInsert le x (stableSort le xs)

theorem stableInsert_perm {α : Type} (le : α → α → Bool) (x : α) (l : List α) :
    (stableInsert le x l).Perm (x :: l) := by
  induction l with
  | nil => simp [stableInsert]
  | cons y ys ih =>
    unfold stableInsert
    by_cases h : le x y
    · simp [h]
    · simp only [h, if_false]
      exact (ih.cons y).trans (List.Perm.swap x y ys)

theorem stableSort_perm {α : Type} (le : α → α → Bool) (l : List α) :
    (stableSort le l).Perm l := by
  induction l with
  | nil => simp [stableSort]
  | cons x xs ih =>
    unfold stableSort
    exact (stableInsert_perm le x (stableSort le xs)).trans (List.Perm.cons x ih)

theorem stableSort_length {α : Type} (le : α → α → Bool) (l : List α) :
    (stableSort le l).length = l.length :=
  (stableSort_perm le l).length_eq

theorem mem_stableSort {α : Type} (le : α → α → Bool) (l : List α) (a : α) :
    a ∈ stableSort le l ↔ a ∈ l :=
  (stableSort_perm le l).mem_iff

theorem stableInsert_pairwise {α : Type} (le : α → α → Bool)
    (htot : ∀ a b, le a b = true ∨ le b a = true)
    (htrans : ∀ a b c, le a b = true → le b c = true → le a c = true)
    (x : α) (l : List α) (hl : l.Pairwise (fun a b => le a b = true)) :
    (stableInsert le x l).Pairwise (fun a b => le a b = true) := by
  induction l with
  | nil => simp [stableInsert]
  | cons y ys ih =>
    rcases List.pairwise_cons.mp hl with ⟨hy, hys⟩
    unfold stableInsert
    by_cases h : le x y
    · simp only [h, if_true]
      refine List.pairwise_cons.mpr ⟨?_, hl⟩
      intro b hb
      rcases List.mem_cons.mp hb with rfl | hb
      · exact h
      · exact htrans x y b h (hy b hb)
    · simp only [h, if_false]
      refine List.pairwise_cons.mpr ⟨?_, ih hys⟩
      intro b hb
      have hyx : le y x = true := by
        rcases htot x y with hxy | hyx
        · exact absurd hxy h
        · exact hyx
      have hb2 : b = x ∨ b ∈ ys := by
        have hmem := (stableInsert_perm le x ys).mem_iff.mp hb
        simpa using hmem
      rcases hb2 with rfl | hb2
      · exact hyx
      · exact hy b hb2

theorem stableSort_pairwise {α : Type} (le : α → α → Bool)
    (htot : ∀ a b, le a b = true ∨ le b a = true)
    (htrans : ∀ a b c, le a b = true → le b c = true → le a c = true)
    (l : List α) :
    (stableSort le l).Pairwise (fun a b => le a b = true) := by
  induction l with
  | nil => simp [stableSort]
  | cons x xs ih =>
    unfold stableSort
    exact stableInsert_pairwise le htot htrans x (stableSort le xs) ih

/-! ### `src/lib/performanceUtils.ts` -/

/-- `MetricData` of `performanceUtils.ts`: a metric key with a raw value. -/
structure MetricData where
  metric_type : String
  value : ℚ
deriving DecidableEq, Repr

/-- `NormalizedMetric` of `performanceUtils.ts`; `value` is the 0-100 score,
an integer because the source rounds it (`Math.round`) or uses the integer
fallback 50. -/
structure NormalizedMetric where
  metric : String
  value : ℤ
  rawValue : ℚ
  unit : String
deriving DecidableEq, Repr

/-- The `LOWER_IS_BETTER` list of `performanceUtils.ts` (time-based metrics). -/
def LOWER_IS_BETTER : List String := ["30yd_dash", "3_cone_drill", "shuttle_5_10_5"]

/-- The `METRIC_LABELS` record of `performanceUtils.ts` as a function. -/
def METRIC_LABELS (t : String) : String :=
  if t = "vertical_jump" then "Vertical Jump"
  else if t = "jump_gather" then "Jump w. Gather Step"
  else if t = "30yd_dash" then "30-Yard Dash"
  else if t = "3_cone_drill" then "3-Cone Drill"
  else if t = "shuttle_5_10_5" then "5-10-5 Shuttle"
  else if t = "pushups_1min" then "Push-Ups (1 Min AMRAP)"
  else ""

/-- The `METRIC_UNITS` record of `performanceUtils.ts` as a function. -/
def METRIC_UNITS (t : String) : String :=
  if t = "vertical_jump" then "cm"
  else if t = "jump_gather" then "cm"
  else if t = "30yd_dash" then "s"
  else if t = "3_cone_drill" then "s"
  else if t = "shuttle_5_10_5" then "s"
  else if t = "pushups_1min" then "reps"
  else ""

/-- `getAllMetricTypes()` of `performanceUtils.ts`: `Object.keys(METRIC_LABELS)`. -/
def getAllMetricTypes : List String :=
  ["vertical_jump", "jump_gather", "30yd_dash", "3_cone_drill", "shuttle_5_10_5",
    "pushups_1min"]

/-- One step of the `allData.forEach` loop of `normalizeMetrics` that builds
the `bestValues` map (embedded as a function from metric key to optional best). -/
def updateBest (m : String → Option ℚ) (item : MetricData) : String → Option ℚ :=
  fun t =>
    if t = item.metric_type then
      match m item.metric_type with
      | none => some item.value
      | some current =>
          if item.metric_type ∈ LOWER_IS_BETTER then some (min current item.value)
          else some (max current item.value)
    else m t

/-- The `bestValues` map of `normalizeMetrics`: best value in `allData` per
metric (min for time metrics, max otherwise), `none` when the metric never
occurs in `allData`. -/
def bestValues (allData : List MetricData) : String → Option ℚ :=
  allData.foldl updateBest (fun _ => none)

/-- `Math.max(0, Math.min(100, x))` of `normalizeMetrics`. -/
def clamp0to100 (q : ℚ) : ℚ := max 0 (min 100 q)

/-- The body of the `data.map` of `normalizeMetrics` for one item, given the
`bestValues` lookup. -/
def normalizeOne (best : String → Option ℚ) (item : MetricData) : NormalizedMetric :=
  match best item.metric_type with
  | none =>
      { metric := METRIC_LABELS item.metric_type
        value := 50
        rawValue := item.value
        unit := METRIC_UNITS item.metric_type }
  | some bestValue =>
      let normalized : ℚ :=
        if item.metric_type ∈ LOWER_IS_BETTER then
          let baseline := bestValue * (1.4 : ℚ)
          let range := baseline - bestValue
          if range = 0 then 100
          else clamp0to100 ((baseline - item.value) / range * 100)
        else
          let divisor : ℚ := if item.metric_type = "pushups_1min" then 5 else 2
          let baseline := bestValue / divisor
          let range := bestValue - baseline
          if range = 0 then 100
          else clamp0to100 ((item.value - baseline) / range * 100)
      { metric := METRIC_LABELS item.metric_type
        value := jsRound normalized
        rawValue := item.value
        unit := METRIC_UNITS item.metric_type }

/-- `normalizeMetrics(data, allData)` of `performanceUtils.ts`. -/
def normalizeMetrics (data allData : List MetricData) : List NormalizedMetric :=
  data.map (normalizeOne (bestValues allData))

/-! ### Spec-side normalizer formulas

These follow the wording of the specification (§4.3): baseline constants per
metric family, `score = clamp01((…)/(…)) × 100`, rounded to nearest integer
after clamping, and score 100 when the range is zero-width. -/

/-- Clamp to the unit interval, as in the spec formula `clamp01`. -/
def clamp01 (q : ℚ) : ℚ := max 0 (min 1 q)

/-- Spec formula for timed metrics: baseline = best × 1.4,
score = clamp01((baseline − value) / (baseline − best)) × 100, rounded;
100 when baseline = best. -/
def specTimedScore (value best : ℚ) : ℤ :=
  let baseline := best * (1.4 : ℚ)
  if baseline = best then 100
  else jsRound (clamp01 ((baseline - value) / (baseline - best)) * 100)

/-- Spec formula for distance/jump metrics: baseline = best / 2,
score = clamp01((value − baseline) / (best − baseline)) × 100, rounded;
100 when the range is zero-width. -/
def specDistanceScore (value best : ℚ) : ℤ :=
  let baseline := best / 2
  if best = baseline then 100
  else jsRound (clamp01 ((value - baseline) / (best - baseline)) * 100)

/-- Spec formula for repetition metrics (push-ups): baseline = best / 5,
same clamp formula as distance. -/
def specRepScore (value best : ℚ) : ℤ :=
  let baseline := best / 5
  if best = baseline then 100
  else jsRound (clamp01 ((value - baseline) / (best - baseline)) * 100)

/-! ### Helper lemmas about rounding and clamping -/

theorem jsRound_of_eq_100 : jsRound (100 : ℚ) = 100 := by
  rw [jsRound_eq_floor]
  exact Int.floor_eq_iff.mpr ⟨by norm_num, by norm_num⟩

theorem jsRound_of_eq_0 : jsRound (0 : ℚ) = 0 := by
  rw [jsRound_eq_floor]
  exact Int.floor_eq_iff.mpr ⟨by norm_num, by norm_num⟩

theorem jsRound_nonneg (q : ℚ) (h : 0 ≤ q) : 0 ≤ jsRound q := by
  rw [jsRound_eq_floor]
  have : ((0 : ℤ) : ℚ) ≤ q + 1/2 := by push_cast; linarith
  exact Int.le_floor.mpr this

theorem jsRound_le_100 (q : ℚ) (h : q ≤ 100) : jsRound q ≤ 100 := by
  rw [jsRound_eq_floor]
  have h2 : ⌊q + 1/2⌋ < 101 := by
    rw [Int.floor_lt]
    push_cast
    linarith
  omega

theorem clamp0to100_nonneg (q : ℚ) : 0 ≤ clamp0to100 q := le_max_left 0 _

theorem clamp0to100_le_100 (q : ℚ) : clamp0to100 q ≤ 100 :=
  max_le (by norm_num) (min_le_left 100 q)

theorem clamp01_mul_100 (r : ℚ) : clamp01 r * 100 = clamp0to100 (r * 100) := by
  unfold clamp01 clamp0to100
  rw [max_mul_of_nonneg _ _ (by norm_num : (0:ℚ) ≤ 100),
    min_mul_of_nonneg _ _ (by norm_num : (0:ℚ) ≤ 100)]
  norm_num

theorem clamp0to100_of_nonpos (q : ℚ) (h : q ≤ 0) : clamp0to100 q = 0 := by
  unfold clamp0to100
  rw [min_eq_right (le_trans h (by norm_num)), max_eq_left h]

theorem clamp0to100_100 : clamp0to100 (100 : ℚ) = 100 := by
  unfold clamp0to100
  norm_num

/-! ### Behavior of `normalizeOne` per metric family -/

theorem normalizeOne_timed (best : String → Option ℚ) (item : MetricData) (b : ℚ)
    (ht : item.metric_type ∈ LOWER_IS_BETTER) (hb : best item.metric_type = some b) :
    normalizeOne best item =
      ⟨METRIC_LABELS item.metric_type, specTimedScore item.value b,
        item.value, METRIC_UNITS item.metric_type⟩ := by
  unfold normalizeOne specTimedScore
  rw [hb]
  simp only [ht, if_true]
  by_cases hz : b * (1.4 : ℚ) - b = 0
  · have hz2 : b * (1.4 : ℚ) = b := by linarith [hz]
    simp only [hz, hz2, sub_self, eq_self_iff_true, if_true, jsRound_of_eq_100]
  · have hz2 : ¬ b * (1.4 : ℚ) = b := fun h => hz (by rw [h]; ring)
    simp only [hz, if_false, hz2]
    rw [clamp01_mul_100]

theorem normalizeOne_distance (best : String → Option ℚ) (item : MetricData) (b : ℚ)
    (ht : ¬ item.metric_type ∈ LOWER_IS_BETTER) (htp : ¬ item.metric_type = "pushups_1min")
    (hb : best item.metric_type = some b) :
    normalizeOne best item =
      ⟨METRIC_LABELS item.metric_type, specDistanceScore item.value b,
        item.value, METRIC_UNITS item.metric_type⟩ := by
  unfold normalizeOne specDistanceScore
  rw [hb]
  simp only [ht, if_false, htp]
  by_cases hz : b - b / 2 = 0
  · have hz2 : b = b / 2 := by linarith [hz]
    simp only [hz, ← hz2, sub_self, eq_self_iff_true, if_true, jsRound_of_eq_100]
  · have hz2 : ¬ b = b / 2 := fun h => hz (by rw [← h]; ring)
    simp only [hz, if_false, hz2]
    rw [clamp01_mul_100]

theorem normalizeOne_rep (best : String → Option ℚ) (item : MetricData) (b : ℚ)
    (htp : item.metric_type = "pushups_1min") (hb : best item.metric_type = some b) :
    normalizeOne best item =
      ⟨METRIC_LABELS item.metric_type, specRepScore item.value b,
        item.value, METRIC_UNITS item.metric_type⟩ := by
  have ht : ¬ item.metric_type ∈ LOWER_IS_BETTER := by
    rw [htp]
    decide
  have htL : ¬ ("pushups_1min" : String) ∈ LOWER_IS_BETTER := by decide
  unfold normalizeOne specRepScore
  rw [hb]
  simp only [ht, if_false, htp, htL, eq_self_iff_true, if_true]
  by_cases hz : b - b / 5 = 0
  · have hz2 : b = b / 5 := by linarith [hz]
    simp only [hz, ← hz2, sub_self, eq_self_iff_true, if_true, jsRound_of_eq_100]
  · have hz2 : ¬ b = b / 5 := fun h => hz (by rw [← h]; ring)
    simp only [hz, if_false, hz2]
    rw [clamp01_mul_100]

theorem if_100_clamp_bounds (p : Prop) [Decidable p] (r : ℚ) :
    0 ≤ (if p then (100 : ℚ) else clamp0to100 r) ∧
      (if p then (100 : ℚ) else clamp0to100 r) ≤ 100 := by
  split_ifs
  · norm_num
  · exact ⟨clamp0to100_nonneg r, clamp0to100_le_100 r⟩

theorem normalizeOne_value_bounds (best : String → Option ℚ) (item : MetricData) :
    0 ≤ (normalizeOne best item).value ∧ (normalizeOne best item).value ≤ 100 := by
  unfold normalizeOne
  cases hcase : best item.metric_type with
  | none => exact ⟨by norm_num, by norm_num⟩
  | some b =>
    dsimp only
    refine ⟨jsRound_nonneg _ ?_, jsRound_le_100 _ ?_⟩
    · split_ifs
      · norm_num
      · exact clamp0to100_nonneg _
      · norm_num
      · exact clamp0to100_nonneg _
      · norm_num
      · exact clamp0to100_nonneg _
    · split_ifs
      · norm_num
      · exact clamp0to100_le_100 _
      · norm_num
      · exact clamp0to100_le_100 _
      · norm_num
      · exact clamp0to100_le_100 _

theorem normalizeOne_at_best (best : String → Option ℚ) (item : MetricData) (b : ℚ)
    (hb : best item.metric_type = some b) (hv : item.value = b) :
    (normalizeOne best item).value = 100 := by
  unfold normalizeOne
  rw [hb]
  dsimp only
  rw [hv]
  by_cases hmem : item.metric_type ∈ LOWER_IS_BETTER
  · simp only [hmem, if_true]
    by_cases hz : b * (1.4 : ℚ) - b = 0
    · simp only [hz, eq_self_iff_true, if_true, jsRound_of_eq_100]
    · rw [if_neg hz, div_self hz]
      norm_num [clamp0to100_100, jsRound_of_eq_100]
  · simp only [hmem, if_false]
    by_cases hz : b - b / (if item.metric_type = "pushups_1min" then (5:ℚ) else 2) = 0
    · simp only [hz, eq_self_iff_true, if_true, jsRound_of_eq_100]
    · rw [if_neg hz, div_self hz]
      norm_num [clamp0to100_100, jsRound_of_eq_100]

theorem normalizeOne_timed_floor (best : String → Option ℚ) (item : MetricData) (b : ℚ)
    (hb : best item.metric_type = some b) (hmem : item.metric_type ∈ LOWER_IS_BETTER)
    (hbpos : 0 < b) (hv : b * (1.4 : ℚ) ≤ item.value) :
    (normalizeOne best item).value = 0 := by
  unfold normalizeOne
  rw [hb]
  dsimp only
  simp only [hmem, if_true]
  have hrange : 0 < b * (1.4 : ℚ) - b := by
    have h14 : b * (1.4 : ℚ) - b = b * (2/5 : ℚ) := by ring
    rw [h14]
    positivity
  have hz : ¬ b * (1.4 : ℚ) - b = 0 := ne_of_gt hrange
  rw [if_neg hz]
  have h1 : b * (1.4 : ℚ) - item.value ≤ 0 := by linarith
  have h3 : (b * (1.4 : ℚ) - item.value) / (b * (1.4 : ℚ) - b) ≤ 0 :=
    div_nonpos_of_nonpos_of_nonneg h1 hrange.le
  have h4 : (b * (1.4 : ℚ) - item.value) / (b * (1.4 : ℚ) - b) * 100 ≤ 0 := by nlinarith
  rw [clamp0to100_of_nonpos _ h4, jsRound_of_eq_0]

/-- C6: the normalized score is exactly the clamp-then-round formula, with the
fixed family constants: timed metrics use baseline best × 1.4, distance/jump
metrics baseline best / 2, repetition metrics (push-ups) baseline best / 5,
and a zero-width range yields score 100. -/
theorem C6_normalizer_formula (item : MetricData) (allData : List MetricData) (b : ℚ)
    (hb : bestValues allData item.metric_type = some b) :
    (item.metric_type ∈ LOWER_IS_BETTER →
      normalizeMetrics [item] allData =
        [⟨METRIC_LABELS item.metric_type, specTimedScore item.value b,
          item.value, METRIC_UNITS item.metric_type⟩]) ∧
    ((item.metric_type = "vertical_jump" ∨ item.metric_type = "jump_gather") →
      normalizeMetrics [item] allData =
        [⟨METRIC_LABELS item.metric_type, specDistanceScore item.value b,
          item.value, METRIC_UNITS item.metric_type⟩]) ∧
    (item.metric_type = "pushups_1min" →
      normalizeMetrics [item] allData =
        [⟨METRIC_LABELS item.metric_type, specRepScore item.value b,
          item.value, METRIC_UNITS item.metric_type⟩]) := by
  refine ⟨fun h => ?_, fun h => ?_, fun h => ?_⟩
  · simp only [normalizeMetrics, List.map_cons, List.map_nil]
    rw [normalizeOne_timed (bestValues allData) item b h hb]
  · have ht : ¬ item.metric_type ∈ LOWER_IS_BETTER := by
      rcases h with h | h <;> rw [h] <;> decide
    have htp : ¬ item.metric_type = "pushups_1min" := by
      rcases h with h | h <;> rw [h] <;> decide
    simp only [normalizeMetrics, List.map_cons, List.map_nil]
    rw [normalizeOne_distance (bestValues allData) item b ht htp hb]
  · simp only [normalizeMetrics, List.map_cons, List.map_nil]
    rw [normalizeOne_rep (bestValues allData) item b h hb]

/-- C6 witness: the formula claim evaluated at a concrete timed input. -/
theorem C6_normalizer_formula_witness :
    bestValues [⟨"30yd_dash", 5⟩] "30yd_dash" = some 5 ∧
    normalizeMetrics [⟨"30yd_dash", 6⟩] [⟨"30yd_dash", 5⟩] =
      [⟨"30-Yard Dash", specTimedScore 6 5, 6, "s"⟩] := by
  have hb : bestValues [⟨"30yd_dash", 5⟩] "30yd_dash" = some 5 := by
    simp [bestValues, updateBest]
  exact ⟨hb, (C6_normalizer_formula ⟨"30yd_dash", 6⟩ [⟨"30yd_dash", 5⟩] 5 hb).1 (by decide)⟩

/-- C7: the normalizer output is always an integer score in [0, 100]; a value
equal to the cohort best scores exactly 100 (both families); for a timed
metric with positive best, a value at or beyond 1.4 × best scores exactly 0
(never negative). -/
theorem C7_normalizer_range_endpoints :
    (∀ (data allData : List MetricData) (m : NormalizedMetric),
        m ∈ normalizeMetrics data allData → 0 ≤ m.value ∧ m.value ≤ 100) ∧
    (∀ (item : MetricData) (allData : List MetricData) (b : ℚ),
        bestValues allData item.metric_type = some b → item.value = b →
        (normalizeOne (bestValues allData) item).value = 100) ∧
    (∀ (item : MetricData) (allData : List MetricData) (b : ℚ),
        bestValues allData item.metric_type = some b →
        item.metric_type ∈ LOWER_IS_BETTER → 0 < b → b * (1.4 : ℚ) ≤ item.value →
        (normalizeOne (bestValues allData) item).value = 0) := by
  refine ⟨?_, ?_, ?_⟩
  · intro data allData m hm
    rcases List.mem_map.mp hm with ⟨item, _, rfl⟩
    exact normalizeOne_value_bounds (bestValues allData) item
  · intro item allData b hb hv
    exact normalizeOne_at_best (bestValues allData) item b hb hv
  · intro item allData b hb hmem hbpos hv
    exact normalizeOne_timed_floor (bestValues allData) item b hb hmem hbpos hv

/-- C7 witness: range and both endpoints evaluated at concrete inputs
(best 5 s; values 6 s, the best itself, and exactly 1.4 × 5 = 7 s). -/
theorem C7_normalizer_range_endpoints_witness :
    (0 ≤ (normalizeOne (bestValues [⟨"30yd_dash", 5⟩]) ⟨"30yd_dash", 6⟩).value ∧
      (normalizeOne (bestValues [⟨"30yd_dash", 5⟩]) ⟨"30yd_dash", 6⟩).value ≤ 100) ∧
    (normalizeOne (bestValues [⟨"vertical_jump", 40⟩]) ⟨"vertical_jump", 40⟩).value = 100 ∧
    (normalizeOne (bestValues [⟨"30yd_dash", 5⟩]) ⟨"30yd_dash", 7⟩).value = 0 := by
  refine ⟨?_, ?_, ?_⟩
  · exact C7_normalizer_range_endpoints.1 [⟨"30yd_dash", 6⟩] [⟨"30yd_dash", 5⟩] _
      (by simp [normalizeMetrics])
  · exact C7_normalizer_range_endpoints.2.1 ⟨"vertical_jump", 40⟩ [⟨"vertical_jump", 40⟩] 40
      (by simp [bestValues, updateBest]) rfl
  · exact C7_normalizer_range_endpoints.2.2 ⟨"30yd_dash", 7⟩ [⟨"30yd_dash", 5⟩] 5
      (by simp [bestValues, updateBest]) (by decide) (by norm_num) (by norm_num)

/-- C9: a metric present in the player's data but absent from the reference
population is not omitted or zeroed; it is returned with the fallback score 50
and the player's raw value. -/
theorem C9_missing_best_fallback (data allData : List MetricData) (item : MetricData)
    (hmem : item ∈ data) (hnone : bestValues allData item.metric_type = none) :
    (normalizeMetrics data allData).length = data.length ∧
      (⟨METRIC_LABELS item.metric_type, 50, item.value,
        METRIC_UNITS item.metric_type⟩ : NormalizedMetric) ∈
        normalizeMetrics data allData := by
  constructor
  · simp [normalizeMetrics]
  · refine List.mem_map.mpr ⟨item, hmem, ?_⟩
    simp [normalizeOne, hnone]

/-- C9 witness: a player metric with an empty reference population gets
score 50 with the raw value, and the metric is not dropped. -/
theorem C9_missing_best_fallback_witness :
    (normalizeMetrics [⟨"vertical_jump", 3⟩] []).length = 1 ∧
      (⟨"Vertical Jump", 50, 3, "cm"⟩ : NormalizedMetric) ∈
        normalizeMetrics [⟨"vertical_jump", 3⟩] [] :=
  C9_missing_best_fallback [⟨"vertical_jump", 3⟩] [] ⟨"vertical_jump", 3⟩
    (by simp) rfl

/-! ### `get-performance-benchmarks/index.ts`: the best-entry reducer

First variant, lines 87-106: a single pass over the raw rows building a
`Map` keyed by the template string `player_id + "-" + metric_type + "-" +
entry_date`; an existing winner is replaced only when the new entry is
strictly better under the entry's comparator direction. -/

/-- A raw `performance_entries` row as used by the reducer (`entry_date` kept
as its string form, since the key is built by string interpolation). -/
structure RawEntry where
  player_id : String
  metric_type : String
  entry_date : String
  value : ℚ
deriving DecidableEq, Repr

/-- The template-string key of the reduction map. -/
def entryKey (e : RawEntry) : String :=
  e.player_id ++ "-" ++ e.metric_type ++ "-" ++ e.entry_date

/-- The local `lowerIsBetter` array of the first benchmarks variant. -/
def benchLowerIsBetter : List String := ["40yd_dash", "shuttle_5_10_5"]

/-- The `shouldReplace` condition of the reducer: strictly better under the
entry's comparator direction (`<` when the metric is in the lower-is-better
list, `>` otherwise). -/
def shouldReplace (lowerList : List String) (entry existing : RawEntry) : Prop :=
  if entry.metric_type ∈ lowerList then entry.value < existing.value
  else entry.value > existing.value

instance (lowerList : List String) (entry existing : RawEntry) :
    Decidable (shouldReplace lowerList entry existing) := by
  unfold shouldReplace
  infer_instance

/-- One step of the `rawData.forEach` loop building `bestEntriesMap`. -/
def bestEntriesStep (lowerList : List String)
    (m : List (String × RawEntry)) (entry : RawEntry) : List (String × RawEntry) :=
  match mapGet m (entryKey entry) with
  | none => mapSet m (entryKey entry) entry
  | some existing =>
      if shouldReplace lowerList entry existing then mapSet m (entryKey entry) entry
      else m

/-- The `bestEntriesMap` reduction: fold the raw rows into the map. -/
def bestEntriesMap (lowerList : List String) (entries : List RawEntry) :
    List (String × RawEntry) :=
  entries.foldl (bestEntriesStep lowerList) []

/-- `Array.from(bestEntriesMap.values())`. -/
def bestEntriesValues (lowerList : List String) (entries : List RawEntry) :
    List RawEntry :=
  (bestEntriesMap lowerList entries).map Prod.snd

/-- Spec-side description of the winner for one key (§4.1): walk the entries
of that key in order; keep the current winner unless the new entry is
strictly better; on an exact tie keep the first-encountered one. -/
def keepFirstBest (lowerList : List String) (l : List RawEntry) : Option RawEntry :=
  l.foldl
    (fun acc e =>
      match acc with
      | none => some e
      | some ex => if shouldReplace lowerList e ex then some e else some ex)
    none

theorem bestEntriesStep_get (lowerList : List String)
    (m : List (String × RawEntry)) (entry : RawEntry) (k : String) :
    mapGet (bestEntriesStep lowerList m entry) k =
      if entryKey entry = k then
        (match mapGet m k with
         | none => some entry
         | some ex => if shouldReplace lowerList entry ex then some entry else some ex)
      else mapGet m k := by
  unfold bestEntriesStep
  by_cases hk : entryKey entry = k
  · subst hk
    cases hget : mapGet m (entryKey entry) with
    | none => simp [hget, mapGet_mapSet]
    | some ex =>
      by_cases hrep : shouldReplace lowerList entry ex
      · simp [hget, hrep, mapGet_mapSet]
      · simp [hget, hrep]
  · cases hget : mapGet m (entryKey entry) with
    | none =>
      have hk2 : ¬ k = entryKey entry := fun h => hk h.symm
      simp [hget, mapGet_mapSet, hk, hk2]
    | some ex =>
      by_cases hrep : shouldReplace lowerList entry ex
      · have hk2 : ¬ k = entryKey entry := fun h => hk h.symm
        simp [hget, hrep, mapGet_mapSet, hk, hk2]
      · simp [hget, hrep, hk]

theorem bestEntriesMap_foldl_get (lowerList : List String)
    (entries : List RawEntry) (m : List (String × RawEntry)) (k : String) :
    mapGet (entries.foldl (bestEntriesStep lowerList) m) k =
      (entries.filter (fun e => entryKey e = k)).foldl
        (fun acc e =>
          match acc with
          | none => some e
          | some ex => if shouldReplace lowerList e ex then some e else some ex)
        (mapGet m k) := by
  induction entries generalizing m with
  | nil => simp
  | cons e rest ih =>
    simp only [List.foldl_cons]
    rw [ih]
    by_cases hk : entryKey e = k
    · rw [List.filter_cons_of_pos (by simpa using hk)]
      simp only [List.foldl_cons]
      rw [bestEntriesStep_get, if_pos hk]
    · rw [List.filter_cons_of_neg (by simpa using hk)]
      rw [bestEntriesStep_get, if_neg hk]

/-- The invariant that every map pair is keyed by its entry's key and keys
are distinct; preserved by every reducer step. -/
def MapWellFormed (m : List (String × RawEntry)) : Prop :=
  (m.map Prod.fst).Nodup ∧ ∀ p ∈ m, p.1 = entryKey p.2

theorem mapSet_wellFormed (m : List (String × RawEntry)) (e : RawEntry)
    (hwf : MapWellFormed m) : MapWellFormed (mapSet m (entryKey e) e) := by
  rcases hwf with ⟨hnodup, hkeys⟩
  unfold mapSet
  by_cases hmem : m.any (fun p => p.1 = entryKey e)
  · rw [if_pos hmem]
    constructor
    · have : (m.map (fun p => if p.1 = entryKey e then (entryKey e, e) else p)).map Prod.fst
          = m.map Prod.fst := by
        rw [List.map_map]
        apply List.map_congr_left
        intro p _
        by_cases hp : p.1 = entryKey e <;> simp [hp]
      rw [this]
      exact hnodup
    · intro p hp
      rcases List.mem_map.mp hp with ⟨q, hq, rfl⟩
      by_cases hq2 : q.1 = entryKey e
      · simp [hq2]
      · simp only [hq2, if_false]
        exact hkeys q hq
  · rw [if_neg hmem]
    constructor
    · rw [List.map_append]
      apply List.Nodup.append hnodup (by simp)
      intro a ha hb
      simp only [List.map_cons, List.map_nil, List.mem_singleton] at hb
      subst hb
      rcases List.mem_map.mp ha with ⟨q, hq, hqe⟩
      have hany : m.any (fun p => p.1 = entryKey e) = true := by
        simp only [List.any_eq_true]
        exact ⟨q, hq, by simpa using hqe⟩
      simp [hany] at hmem
    · intro p hp
      rcases List.mem_append.mp hp with hp | hp
      · exact hkeys p hp
      · simp only [List.mem_singleton] at hp
        subst hp
        rfl

theorem bestEntriesStep_wellFormed (lowerList : List String)
    (m : List (String × RawEntry)) (e : RawEntry) (hwf : MapWellFormed m) :
    MapWellFormed (bestEntriesStep lowerList m e) := by
  unfold bestEntriesStep
  cases hget : mapGet m (entryKey e) with
  | none => exact mapSet_wellFormed m e hwf
  | some ex =>
    by_cases hrep : shouldReplace lowerList e ex
    · simp only [hrep, if_true]
      exact mapSet_wellFormed m e hwf
    · simp only [hrep, if_false]
      exact hwf

theorem bestEntriesMap_wellFormed (lowerList : List String) (entries : List RawEntry) :
    MapWellFormed (bestEntriesMap lowerList entries) := by
  unfold bestEntriesMap
  suffices h : ∀ (m : List (String × RawEntry)), MapWellFormed m →
      MapWellFormed (entries.foldl (bestEntriesStep lowerList) m) by
    exact h [] ⟨by simp, by simp⟩
  induction entries with
  | nil => intro m hm; simpa using hm
  | cons e rest ih =>
    intro m hm
    simpa using ih (bestEntriesStep lowerList m e) (bestEntriesStep_wellFormed lowerList m e hm)

theorem wellFormed_values_unique (m : List (String × RawEntry)) (hwf : MapWellFormed m)
    (e1 e2 : RawEntry) (h1 : e1 ∈ m.map Prod.snd) (h2 : e2 ∈ m.map Prod.snd)
    (hkey : entryKey e1 = entryKey e2) : e1 = e2 := by
  rcases hwf with ⟨hnodup, hkeys⟩
  rcases List.mem_map.mp h1 with ⟨p1, hp1, rfl⟩
  rcases List.mem_map.mp h2 with ⟨p2, hp2, rfl⟩
  have hk1 : p1.1 = entryKey p1.2 := hkeys p1 hp1
  have hk2 : p2.1 = entryKey p2.2 := hkeys p2 hp2
  have hkk : p1.1 = p2.1 := by rw [hk1, hk2, hkey]
  have : p1 = p2 := by
    have hinj := List.inj_on_of_nodup_map hnodup
    exact hinj hp1 hp2 hkk
  rw [this]

/-- C5: the best-entry reducer keeps at most one entry per
(player_id, metric_type, entry_date) key, and the entry kept for a key is the
per-key left fold that replaces the current winner only when the new entry is
strictly better under the metric's comparator, keeping the first-encountered
entry on an exact value tie. -/
theorem C5_reducer_per_key (lowerList : List String) (entries : List RawEntry)
    (k : String) (e1 e2 : RawEntry)
    (h1 : e1 ∈ bestEntriesValues lowerList entries)
    (h2 : e2 ∈ bestEntriesValues lowerList entries)
    (hpid : e1.player_id = e2.player_id) (hmt : e1.metric_type = e2.metric_type)
    (hdate : e1.entry_date = e2.entry_date) :
    e1 = e2 ∧
    mapGet (bestEntriesMap lowerList entries) k =
      keepFirstBest lowerList (entries.filter (fun e => entryKey e = k)) := by
  constructor
  · have hkey : entryKey e1 = entryKey e2 := by
      unfold entryKey
      rw [hpid, hmt, hdate]
    exact wellFormed_values_unique (bestEntriesMap lowerList entries)
      (bestEntriesMap_wellFormed lowerList entries) e1 e2 h1 h2 hkey
  · unfold bestEntriesMap keepFirstBest
    rw [bestEntriesMap_foldl_get]
    rfl

/-- C5 witness: three same-key attempts 20, 35, 35 for a rep metric reduce to
the single first-encountered 35. -/
theorem C5_reducer_per_key_witness :
    (⟨"p", "vertical_jump", "2025-01-01", 35⟩ : RawEntry) ∈
      bestEntriesValues benchLowerIsBetter
        [⟨"p", "vertical_jump", "2025-01-01", 20⟩,
         ⟨"p", "vertical_jump", "2025-01-01", 35⟩,
         ⟨"p", "vertical_jump", "2025-01-01", 35⟩] ∧
    mapGet (bestEntriesMap benchLowerIsBetter
        [⟨"p", "vertical_jump", "2025-01-01", 20⟩,
         ⟨"p", "vertical_jump", "2025-01-01", 35⟩,
         ⟨"p", "vertical_jump", "2025-01-01", 35⟩]) "p-vertical_jump-2025-01-01" =
      keepFirstBest benchLowerIsBetter
        (List.filter (fun e => entryKey e = "p-vertical_jump-2025-01-01")
          [⟨"p", "vertical_jump", "2025-01-01", 20⟩,
           ⟨"p", "vertical_jump", "2025-01-01", 35⟩,
           ⟨"p", "vertical_jump", "2025-01-01", 35⟩]) := by
  have hmem : (⟨"p", "vertical_jump", "2025-01-01", 35⟩ : RawEntry) ∈
      bestEntriesValues benchLowerIsBetter
        [⟨"p", "vertical_jump", "2025-01-01", 20⟩,
         ⟨"p", "vertical_jump", "2025-01-01", 35⟩,
         ⟨"p", "vertical_jump", "2025-01-01", 35⟩] := by
    decide
  exact ⟨hmem,
    (C5_reducer_per_key benchLowerIsBetter _ "p-vertical_jump-2025-01-01" _ _
      hmem hmem rfl rfl rfl).2⟩

theorem bestEntries_foldl_fresh (lowerList : List String) :
    ∀ (entries : List RawEntry) (m : List (String × RawEntry)),
      (entries.map entryKey).Nodup →
      (∀ e ∈ entries, mapGet m (entryKey e) = none) →
      entries.foldl (bestEntriesStep lowerList) m =
        m ++ entries.map (fun e => (entryKey e, e)) := by
  intro entries
  induction entries with
  | nil => intro m _ _; simp
  | cons e rest ih =>
    intro m hnodup hfresh
    have hget : mapGet m (entryKey e) = none := hfresh e (by simp)
    have hstep : bestEntriesStep lowerList m e = m ++ [(entryKey e, e)] := by
      unfold bestEntriesStep
      rw [hget]
      unfold mapSet
      rw [if_neg ?_]
      intro hany
      rw [mapGet_eq_none_iff] at hget
      simp [hget] at hany
    have hnodup2 : ¬ entryKey e ∈ rest.map entryKey ∧ (rest.map entryKey).Nodup := by
      rw [List.map_cons] at hnodup
      exact List.nodup_cons.mp hnodup
    simp only [List.foldl_cons, hstep]
    rw [ih (m ++ [(entryKey e, e)])]
    · simp
    · exact hnodup2.2
    · intro e2 he2
      rw [mapGet_append]
      rw [hfresh e2 (by simp [he2])]
      have hne : ¬ entryKey e = entryKey e2 := by
        intro heq
        exact hnodup2.1 (by rw [heq]; exact List.mem_map.mpr ⟨e2, he2, rfl⟩)
      simp [mapGet_cons, hne, mapGet_nil]

/-- C8: the best-entry reducer is idempotent: a collection that already has at
most one entry per key is returned unchanged. -/
theorem C8_reducer_idempotent (lowerList : List String) (entries : List RawEntry)
    (h : (entries.map entryKey).Nodup) :
    bestEntriesValues lowerList entries = entries := by
  unfold bestEntriesValues bestEntriesMap
  rw [bestEntries_foldl_fresh lowerList entries [] h (by intro e _; rfl)]
  simp only [List.nil_append, List.map_map]
  have hcomp : (Prod.snd ∘ fun e : RawEntry => (entryKey e, e)) = id := rfl
  rw [hcomp, List.map_id]

/-- C8 witness: an already-reduced two-entry collection is returned unchanged. -/
theorem C8_reducer_idempotent_witness :
    bestEntriesValues benchLowerIsBetter
        [⟨"p", "vertical_jump", "2025-01-01", 20⟩,
         ⟨"q", "vertical_jump", "2025-01-01", 30⟩] =
      [⟨"p", "vertical_jump", "2025-01-01", 20⟩,
       ⟨"q", "vertical_jump", "2025-01-01", 30⟩] :=
  C8_reducer_idempotent benchLowerIsBetter _ (by decide)

/-! ### `get-performance-benchmarks/index.ts`: cohort resolution and per-metric
bests (first variant, lines 110-182)

The database fetches are embedded by passing the fetched rows as arguments;
the `order value / limit 1` queries are embedded as minimum/maximum over the
rows they would return. -/

/-- `offensePositions` of the benchmarks handler. -/
def offensePositions : List String := ["QB", "WR", "C"]

/-- `defensePositions` of the benchmarks handler. -/
def defensePositions : List String := ["DB", "B"]

/-- The `allMetrics` list of the first benchmarks variant. -/
def benchAllMetrics : List String :=
  ["vertical_jump", "jump_gather", "40yd_dash", "shuttle_5_10_5", "pushups_1min"]

/-- The `playerIds` resolution of the benchmarks handler: position rows are
`(player_id, position)` pairs; `best` mode (or a missing position parameter)
leaves the list empty. -/
def resolvePlayerIds (mode : String) (position : Option String)
    (playerPositions : List (String × String)) : List String :=
  match position with
  | some p =>
      if mode = "position" then
        (playerPositions.filter (fun r => r.2 = p)).map (fun r => r.1)
      else if mode = "offense" ∨ mode = "defense" then
        let positions := if mode = "offense" then offensePositions else defensePositions
        (playerPositions.filter (fun r => r.2 ∈ positions)).map (fun r => r.1)
      else []
  | none =>
      if mode = "offense" ∨ mode = "defense" then
        let positions := if mode = "offense" then offensePositions else defensePositions
        (playerPositions.filter (fun r => r.2 ∈ positions)).map (fun r => r.1)
      else []

/-- The `playerLatest` map of the metric loop: first-seen value per player
(rows arrive sorted by entry_date descending, so first-seen = latest),
returned in insertion order. -/
def firstSeenValues (l : List RawEntry) : List ℚ :=
  (l.foldl
    (fun (acc : List (String × ℚ)) e =>
      if acc.any (fun p => p.1 = e.player_id) then acc
      else acc ++ [(e.player_id, e.value)])
    []).map (fun p => p.2)

/-- `Math.min(...values)` over a non-empty list (none when empty). -/
def foldMin : List ℚ → Option ℚ
  | [] => none
  | x :: xs => some (xs.foldl min x)

/-- `Math.max(...values)` over a non-empty list (none when empty). -/
def foldMax : List ℚ → Option ℚ
  | [] => none
  | x :: xs => some (xs.foldl max x)

/-- The body of the benchmarks metric loop: filter the best-daily rows by
metric, filter by cohort members ONLY when `playerIds` is non-empty, then
take the best of each player's latest value. -/
def benchmarkForMetric (lowerList : List String) (playerIds : List String)
    (metric : String) (entries : List RawEntry) : Option ℚ :=
  let filtered0 := entries.filter (fun e => e.metric_type = metric)
  let filtered :=
    if playerIds.length > 0 then
      filtered0.filter (fun e => e.player_id ∈ playerIds)
    else filtered0
  if filtered.length > 0 then
    let values := firstSeenValues filtered
    if metric ∈ lowerList then foldMin values else foldMax values
  else none

/-- The benchmarks result: one `(metric_type, best value)` row per metric
that produced data. -/
def computeBenchmarks (mode : String) (position : Option String)
    (playerPositions : List (String × String)) (entries : List RawEntry) :
    List (String × ℚ) :=
  let playerIds := resolvePlayerIds mode position playerPositions
  benchAllMetrics.filterMap
    (fun metric =>
      (benchmarkForMetric benchLowerIsBetter playerIds metric entries).map
        (fun v => (metric, v)))

/-- C1 counterexample: in position mode for a position no player holds, the
cohort is empty, yet the handler still returns a benchmark computed from all
players' entries instead of "no data" for every metric. -/
theorem C1_empty_cohort_counterexample :
    resolvePlayerIds "position" (some "QB") [("p1", "WR")] = [] ∧
    computeBenchmarks "position" (some "QB") [("p1", "WR")]
        [⟨"p1", "vertical_jump", "2025-01-01", 50⟩] =
      [("vertical_jump", 50)] := by
  constructor
  · decide
  · decide

/-- C1 amended: when the resolved cohort is empty, the player filter is
skipped, so the benchmarks equal those of `best` mode over all players; a
metric is reported as "no data" only when no player at all has entries for
it. -/
theorem C1_empty_cohort_falls_back_to_all (mode : String) (position : Option String)
    (playerPositions : List (String × String)) (entries : List RawEntry)
    (h : resolvePlayerIds mode position playerPositions = []) :
    computeBenchmarks mode position playerPositions entries =
      computeBenchmarks "best" none playerPositions entries := by
  unfold computeBenchmarks
  rw [h]
  rfl

/-- C1 amended witness: the counterexample input reproduces the `best`-mode
benchmarks. -/
theorem C1_empty_cohort_falls_back_to_all_witness :
    computeBenchmarks "position" (some "QB") [("p1", "WR")]
        [⟨"p1", "vertical_jump", "2025-01-01", 50⟩] =
      computeBenchmarks "best" none [("p1", "WR")]
        [⟨"p1", "vertical_jump", "2025-01-01", 50⟩] :=
  C1_empty_cohort_falls_back_to_all "position" (some "QB") [("p1", "WR")]
    [⟨"p1", "vertical_jump", "2025-01-01", 50⟩] (by decide)

/-! ### `usePerformanceComparison.ts` (`fetchBestMetrics`) and the SQL
function `get_best_daily_entries`

`fetchBestMetrics` queries, per metric, `order('value', { ascending:
isLowerBetter }).limit(1)`; that query is embedded as the minimum of the
fetched values when ascending and the maximum otherwise.  The SQL
`ROW_NUMBER() ... ORDER BY CASE ... END ASC` winner of one
(player, metric, day) partition is embedded as the entry minimizing the CASE
key, first row winning ties. -/

/-- The local `lowerIsBetter` array of `fetchBestMetrics` (note: these metric
names do not occur in `getAllMetricTypes`). -/
def hookLowerIsBetter : List String := ["40yd_dash", "3cone_drill", "shuffle_run"]

/-- `fetchBestMetrics` of `usePerformanceComparison.ts`, given the
`performance_entries` rows it would fetch. -/
def fetchBestMetrics (entries : List MetricData) : List MetricData :=
  getAllMetricTypes.filterMap
    (fun metric =>
      let isLowerBetter := metric ∈ hookLowerIsBetter
      let vals := (entries.filter (fun e => e.metric_type = metric)).map (fun e => e.value)
      (if isLowerBetter then foldMin vals else foldMax vals).map
        (fun v => (⟨metric, v⟩ : MetricData)))

/-- The metric list of the `CASE WHEN pe.metric_type IN (…) THEN pe.value`
branch of `get_best_daily_entries`. -/
def sqlTimeMetrics : List String := ["40yd_dash", "shuttle_5_10_5"]

/-- The `ORDER BY CASE … END ASC` sort key of `get_best_daily_entries`. -/
def sqlOrderKey (e : RawEntry) : ℚ :=
  if e.metric_type ∈ sqlTimeMetrics then e.value else -e.value

/-- The `rn = 1` row of one (player, metric, entry_date) partition of
`get_best_daily_entries`: the entry minimizing the CASE key (first row on a
tie). -/
def sqlBestDailyWinner (grp : List RawEntry) : Option RawEntry :=
  grp.foldl
    (fun acc e =>
      match acc with
      | none => some e
      | some ex => if sqlOrderKey e < sqlOrderKey ex then some e else some ex)
    none

/-- C2: evaluation of the code at the failing input. The repository's own
metric definitions (`LOWER_IS_BETTER` in `performanceUtils.ts`) flag
`30yd_dash` and `3_cone_drill` as lower-is-better, but `fetchBestMetrics`
and `get_best_daily_entries` test against stale metric names
(`40yd_dash`, `3cone_drill`, `shuffle_run`), so for a 30-yard dash with
recorded times 45 and 51 (tenths of a second) both pick the slowest value 51
as "best" where the claim requires the minimum 45. -/
theorem C2_stale_comparator_direction :
    ("30yd_dash" ∈ LOWER_IS_BETTER ∧ "3_cone_drill" ∈ LOWER_IS_BETTER ∧
      "shuttle_5_10_5" ∈ LOWER_IS_BETTER) ∧
    (¬ "30yd_dash" ∈ hookLowerIsBetter ∧ ¬ "3_cone_drill" ∈ hookLowerIsBetter ∧
      ¬ "shuttle_5_10_5" ∈ hookLowerIsBetter) ∧
    fetchBestMetrics [⟨"30yd_dash", 45⟩, ⟨"30yd_dash", 51⟩] = [⟨"30yd_dash", 51⟩] ∧
    foldMin [(45 : ℚ), 51] = some 45 ∧
    (¬ "30yd_dash" ∈ sqlTimeMetrics ∧ ¬ "3_cone_drill" ∈ sqlTimeMetrics) ∧
    sqlBestDailyWinner
        [⟨"p", "30yd_dash", "2025-01-01", 45⟩, ⟨"p", "30yd_dash", "2025-01-01", 51⟩] =
      some ⟨"p", "30yd_dash", "2025-01-01", 51⟩ := by
  refine ⟨by decide, by decide, by decide, by decide, by decide, by decide⟩

/-! ### `get-player-neighborhood/index.ts`

Both variants present in the file are embedded: the first computes the
percentile from the player's rank in a better-first sort and takes the entry
immediately before the player as "next best"; the second counts strictly
worse teammates and scans for a strictly better entry, but pushes
`next_best_player: null`.  Dates are embedded as integers (day numbers). -/

/-- A `performance_entries` row as used by the neighborhood handler. -/
structure PerfEntry where
  player_id : String
  metric_type : String
  value : ℚ
  unit : String
  entry_date : ℤ
deriving DecidableEq, Repr

/-- The `player_id-metric_type` key of the `latestEntries` map. -/
def latestKey (e : PerfEntry) : String := e.player_id ++ "-" ++ e.metric_type

/-- The `timeBasedMetrics` list of the neighborhood handler. -/
def timeBasedMetrics : List String := ["shuttle_5_10_5", "30yd_dash", "3_cone_drill"]

/-- The `metricNames` record (insertion order preserved). -/
def metricNames : List (String × String) :=
  [("shuttle_5_10_5", "5-10-5 Shuttle"), ("vertical_jump", "Vertical Jump"),
   ("jump_gather", "Jump w. Gather Step"), ("pushups_1min", "Push-Ups (1 Min AMRAP)"),
   ("30yd_dash", "30-Yard Dash"), ("3_cone_drill", "3-Cone Drill")]

/-- One step of the first variant's `latestEntries` construction: keep the
entry with the most recent date. -/
def latestStepV1 (m : List (String × PerfEntry)) (entry : PerfEntry) :
    List (String × PerfEntry) :=
  match mapGet m (latestKey entry) with
  | none => mapSet m (latestKey entry) entry
  | some existing =>
      if entry.entry_date > existing.entry_date then mapSet m (latestKey entry) entry
      else m

/-- The first variant's `latestEntries` map. -/
def latestEntriesV1 (allEntries : List PerfEntry) : List (String × PerfEntry) :=
  allEntries.foldl latestStepV1 []

/-- The second variant's same-day tiebreak: keep the better value, lower for
time-based metrics, higher otherwise. -/
def isBetterSameDay (entry existing : PerfEntry) : Bool :=
  if entry.metric_type ∈ timeBasedMetrics then decide (entry.value < existing.value)
  else decide (entry.value > existing.value)

/-- One step of the second variant's `latestEntries` construction: most
recent date wins; on the same date the better value wins. -/
def latestStepV2 (m : List (String × PerfEntry)) (entry : PerfEntry) :
    List (String × PerfEntry) :=
  match mapGet m (latestKey entry) with
  | none => mapSet m (latestKey entry) entry
  | some existing =>
      if entry.entry_date > existing.entry_date then mapSet m (latestKey entry) entry
      else if entry.entry_date = existing.entry_date then
        if isBetterSameDay entry existing then mapSet m (latestKey entry) entry
        else m
      else m

/-- The second variant's `latestEntries` map. -/
def latestEntriesV2 (allEntries : List PerfEntry) : List (String × PerfEntry) :=
  allEntries.foldl latestStepV2 []

/-- The `{player_id, value, unit}` rows of one metric. -/
structure MetricEntryRow where
  player_id : String
  value : ℚ
  unit : String
deriving DecidableEq, Repr

/-- `Array.from(latestEntries.values()).filter(metric_type).map(...)`. -/
def toMetricEntries (metricKey : String) (latestValues : List PerfEntry) :
    List MetricEntryRow :=
  (latestValues.filter (fun e => e.metric_type = metricKey)).map
    (fun e => ⟨e.player_id, e.value, e.unit⟩)

/-- The `sort((a, b) => isTime ? a.value - b.value : b.value - a.value)` call,
embedded as the stable sort with the corresponding comparison. -/
def sortByPerformance (isTime : Bool) (l : List MetricEntryRow) : List MetricEntryRow :=
  stableSort
    (fun a b => if isTime then decide (a.value ≤ b.value) else decide (b.value ≤ a.value)) l

/-- The response record of the neighborhood handler. -/
structure MetricNeighborhood where
  metric_type : String
  metric_name : String
  unit : String
  current_value : Option ℚ
  next_best_player : Option String
  next_best_value : Option ℚ
  percentile : Option ℤ
deriving DecidableEq, Repr

/-- The all-null record pushed when the player has no entry for the metric. -/
def nullRecord (metricKey metricName unitStr : String) : MetricNeighborhood :=
  ⟨metricKey, metricName, unitStr, none, none, none, none⟩

/-- The first variant's metric-loop body (rank-based percentile; "next best"
is the entry immediately before the player in the sorted order, with no
strictly-better check). -/
def perMetricV1 (profileMap : String → Option String)
    (player_id metricKey metricName : String) (latestValues : List PerfEntry) :
    MetricNeighborhood :=
  let isTime : Bool := decide (metricKey ∈ timeBasedMetrics)
  let metricEntries := toMetricEntries metricKey latestValues
  match metricEntries.find? (fun e => e.player_id = player_id) with
  | none =>
      nullRecord metricKey metricName
        (((metricEntries.head?).map (fun e => e.unit)).getD "")
  | some currentPlayerEntry =>
      let currentValue := currentPlayerEntry.value
      let sortedEntries := sortByPerformance isTime metricEntries
      let currentRank := sortedEntries.findIdx (fun e => e.player_id = player_id)
      let nextBest : Option MetricEntryRow :=
        if currentRank > 0 then sortedEntries[currentRank - 1]? else none
      let nextBestPlayer := nextBest.bind (fun nb => profileMap nb.player_id)
      let nextBestValue := nextBest.map (fun nb => nb.value)
      let totalPlayers := sortedEntries.length
      let playersBelowCount : ℤ := (totalPlayers : ℤ) - (currentRank : ℤ) - 1
      let percentile : ℤ :=
        if totalPlayers > 1 then
          jsRound ((playersBelowCount : ℚ) / ((totalPlayers : ℚ) - 1) * 100)
        else 100
      ⟨metricKey, metricName, currentPlayerEntry.unit, some currentValue,
        nextBestPlayer, nextBestValue, some percentile⟩

/-- The second variant's metric-loop body (strictly-worse-count percentile;
"next best" scans down from the player's rank for a strictly better value;
the computed `nextBestPlayer` is discarded: the push writes
`next_best_player: null`). -/
def perMetricV2 (profileMap : String → Option String)
    (player_id metricKey metricName : String) (latestValues : List PerfEntry) :
    MetricNeighborhood :=
  let isTime : Bool := decide (metricKey ∈ timeBasedMetrics)
  let metricEntries := toMetricEntries metricKey latestValues
  match metricEntries.find? (fun e => e.player_id = player_id) with
  | none =>
      nullRecord metricKey metricName
        (((metricEntries.head?).map (fun e => e.unit)).getD "")
  | some currentPlayerEntry =>
      let currentValue := currentPlayerEntry.value
      let sortedEntries := sortByPerformance isTime metricEntries
      let currentRank := sortedEntries.findIdx (fun e => e.player_id = player_id)
      let nextBest : Option MetricEntryRow :=
        (sortedEntries.take currentRank).reverse.find?
          (fun c =>
            if isTime then decide (c.value < currentValue)
            else decide (c.value > currentValue))
      let nextBestPlayer := nextBest.bind (fun nb => profileMap nb.player_id)
      let nextBestValue := nextBest.map (fun nb => nb.value)
      let totalPlayers := sortedEntries.length
      let worseCount :=
        (sortedEntries.filter
          (fun e =>
            if e.player_id = player_id then false
            else if isTime then decide (e.value > currentValue)
            else decide (e.value < currentValue))).length
      let percentile : ℤ :=
        if totalPlayers > 1 then
          jsRound ((worseCount : ℚ) / ((totalPlayers : ℚ) - 1) * 100)
        else 100
      ⟨metricKey, metricName, currentPlayerEntry.unit, some currentValue,
        none, nextBestValue, some percentile⟩

/-- The first variant's response body: empty array when the player has no
entry at all, otherwise one record per metric. -/
def neighborhoodResponseV1 (profileMap : String → Option String)
    (player_id : String) (allEntries : List PerfEntry) : List MetricNeighborhood :=
  if allEntries.any (fun e => e.player_id = player_id) then
    metricNames.map
      (fun p => perMetricV1 profileMap player_id p.1 p.2
        ((latestEntriesV1 allEntries).map Prod.snd))
  else []

/-- The second variant's response body. -/
def neighborhoodResponseV2 (profileMap : String → Option String)
    (player_id : String) (allEntries : List PerfEntry) : List MetricNeighborhood :=
  if allEntries.any (fun e => e.player_id = player_id) then
    metricNames.map
      (fun p => perMetricV2 profileMap player_id p.1 p.2
        ((latestEntriesV2 allEntries).map Prod.snd))
  else []

/-- Spec-side count of teammates strictly worse than the player under the
metric's direction; exact ties and the player's own row are excluded (§4.4). -/
def specStrictlyWorseCount (isTime : Bool) (player_id : String) (currentValue : ℚ)
    (rows : List MetricEntryRow) : ℕ :=
  (rows.filter
    (fun e =>
      decide (e.player_id ≠ player_id ∧
        (if isTime then currentValue < e.value else e.value < currentValue)))).length

/-- Spec-side percentile formula (§4.4): round(100 × strictly-worse count /
(players with an entry − 1)); 100 when the player is the only one with data. -/
def specPercentile (isTime : Bool) (player_id : String) (currentValue : ℚ)
    (rows : List MetricEntryRow) : ℤ :=
  if rows.length ≤ 1 then 100
  else
    jsRound (100 * (specStrictlyWorseCount isTime player_id currentValue rows : ℚ) /
      ((rows.length : ℚ) - 1))

theorem worsePred_eq (isTime : Bool) (player_id : String) (cur : ℚ) (e : MetricEntryRow) :
    (if e.player_id = player_id then false
     else if isTime then decide (e.value > cur) else decide (e.value < cur))
    = decide (e.player_id ≠ player_id ∧
        (if isTime then cur < e.value else e.value < cur)) := by
  by_cases hp : e.player_id = player_id
  · simp [hp]
  · cases isTime <;> simp [hp, gt_iff_lt]

/-- C3 amended: the strictly-worse-count variant returns exactly the spec
percentile formula (ties excluded; 100 when the player is the only one with
data). -/
theorem C3_strict_variant_percentile (profileMap : String → Option String)
    (player_id metricKey metricName : String) (latestValues : List PerfEntry)
    (cur : MetricEntryRow)
    (hfind : (toMetricEntries metricKey latestValues).find?
        (fun e => e.player_id = player_id) = some cur) :
    (perMetricV2 profileMap player_id metricKey metricName latestValues).percentile =
      some (specPercentile (decide (metricKey ∈ timeBasedMetrics)) player_id cur.value
        (toMetricEntries metricKey latestValues)) := by
  unfold perMetricV2
  dsimp only
  rw [hfind]
  dsimp only
  congr 1
  set isTime : Bool := decide (metricKey ∈ timeBasedMetrics) with hisTime
  set rows : List MetricEntryRow := toMetricEntries metricKey latestValues with hrows
  have hperm := stableSort_perm
    (fun a b : MetricEntryRow =>
      if isTime then decide (a.value ≤ b.value) else decide (b.value ≤ a.value)) rows
  have hlen : (sortByPerformance isTime rows).length = rows.length :=
    stableSort_length _ rows
  have hcount :
      ((sortByPerformance isTime rows).filter
        (fun e =>
          if e.player_id = player_id then false
          else if isTime then decide (e.value > cur.value)
          else decide (e.value < cur.value))).length =
      specStrictlyWorseCount isTime player_id cur.value rows := by
    unfold specStrictlyWorseCount
    have hpred :
        (fun e : MetricEntryRow =>
          if e.player_id = player_id then false
          else if isTime then decide (e.value > cur.value)
          else decide (e.value < cur.value)) =
        (fun e : MetricEntryRow =>
          decide (e.player_id ≠ player_id ∧
            (if isTime then cur.value < e.value else e.value < cur.value))) := by
      funext e
      exact worsePred_eq isTime player_id cur.value e
    rw [hpred]
    rw [← List.countP_eq_length_filter, ← List.countP_eq_length_filter]
    exact hperm.countP_eq _
  unfold specPercentile
  rw [hcount, hlen]
  by_cases hle : rows.length ≤ 1
  · rw [if_neg (by omega), if_pos hle]
  · rw [if_pos (by omega), if_neg hle]
    congr 1
    ring

/-- C3 amended witness: three data-having players 45, 48, 51 on the 30-yard
dash; the strict variant's percentile for the 48 player matches the spec
formula. -/
theorem C3_strict_variant_percentile_witness :
    (perMetricV2 (fun _ => none) "p" "30yd_dash" "30-Yard Dash"
        [⟨"p", "30yd_dash", 48, "s", 0⟩, ⟨"q", "30yd_dash", 45, "s", 0⟩,
         ⟨"r", "30yd_dash", 51, "s", 0⟩]).percentile =
      some (specPercentile (decide ("30yd_dash" ∈ timeBasedMetrics)) "p" (48 : ℚ)
        (toMetricEntries "30yd_dash"
          [⟨"p", "30yd_dash", 48, "s", 0⟩, ⟨"q", "30yd_dash", 45, "s", 0⟩,
           ⟨"r", "30yd_dash", 51, "s", 0⟩])) :=
  C3_strict_variant_percentile (fun _ => none) "p" "30yd_dash" "30-Yard Dash"
    [⟨"p", "30yd_dash", 48, "s", 0⟩, ⟨"q", "30yd_dash", 45, "s", 0⟩,
     ⟨"r", "30yd_dash", 51, "s", 0⟩] ⟨"p", 48, "s"⟩ (by decide)

/-- C3 counterexample: with two players tied at 50 on a timed metric and the
current player stored first, the rank-based variant returns percentile 100,
while the claimed formula (ties excluded from the numerator) gives 0. -/
theorem C3_rank_variant_counts_ties_counterexample :
    (perMetricV1 (fun _ => none) "p" "30yd_dash" "30-Yard Dash"
        [⟨"p", "30yd_dash", 50, "s", 0⟩, ⟨"q", "30yd_dash", 50, "s", 0⟩]).percentile =
      some 100 ∧
    specPercentile true "p" 50
        (toMetricEntries "30yd_dash"
          [⟨"p", "30yd_dash", 50, "s", 0⟩, ⟨"q", "30yd_dash", 50, "s", 0⟩]) = 0 := by
  constructor
  · norm_num [perMetricV1, toMetricEntries, sortByPerformance, stableSort, stableInsert,
      nullRecord, timeBasedMetrics, jsRound, Rat.floor_def', List.findIdx_cons,
      List.findIdx_nil]
  · norm_num [specPercentile, specStrictlyWorseCount, toMetricEntries, jsRound,
      Rat.floor_def']

/-- C4: evaluation of both variants at the failing inputs. With teammates
tied at 48, the rank-based variant returns the tied teammate (value 48,
name present) as "next best", although an exact tie must never be chosen;
with a strictly better teammate at 45, the strict variant returns the right
value but always a null `next_best_player`, although the claim requires the
teammate's name. -/
theorem C4_next_best_failing_inputs :
    ((perMetricV1 (fun s => if s = "q" then some "Quinn Q" else none) "p" "30yd_dash"
        "30-Yard Dash"
        [⟨"q", "30yd_dash", 48, "s", 0⟩, ⟨"p", "30yd_dash", 48, "s", 0⟩]).current_value =
      some 48 ∧
     (perMetricV1 (fun s => if s = "q" then some "Quinn Q" else none) "p" "30yd_dash"
        "30-Yard Dash"
        [⟨"q", "30yd_dash", 48, "s", 0⟩, ⟨"p", "30yd_dash", 48, "s", 0⟩]).next_best_value =
      some 48 ∧
     (perMetricV1 (fun s => if s = "q" then some "Quinn Q" else none) "p" "30yd_dash"
        "30-Yard Dash"
        [⟨"q", "30yd_dash", 48, "s", 0⟩, ⟨"p", "30yd_dash", 48, "s", 0⟩]).next_best_player =
      some "Quinn Q") ∧
    ((perMetricV2 (fun s => if s = "q" then some "Quinn Q" else none) "p" "30yd_dash"
        "30-Yard Dash"
        [⟨"q", "30yd_dash", 45, "s", 0⟩, ⟨"p", "30yd_dash", 48, "s", 0⟩]).next_best_value =
      some 45 ∧
     (perMetricV2 (fun s => if s = "q" then some "Quinn Q" else none) "p" "30yd_dash"
        "30-Yard Dash"
        [⟨"q", "30yd_dash", 45, "s", 0⟩, ⟨"p", "30yd_dash", 48, "s", 0⟩]).next_best_player =
      none) := by
  refine ⟨⟨?_, ?_, ?_⟩, ?_, ?_⟩ <;> decide

/-- C10: a player with no entry at all gets the empty array as response body
(both variants); a player with at least one entry gets one record per metric
(six records), and each metric the player lacks yields the all-null record. -/
theorem C10_response_guard (profileMap : String → Option String) (player_id : String)
    (allEntries : List PerfEntry) :
    (allEntries.any (fun e => e.player_id = player_id) = false →
      neighborhoodResponseV1 profileMap player_id allEntries = [] ∧
      neighborhoodResponseV2 profileMap player_id allEntries = []) ∧
    (allEntries.any (fun e => e.player_id = player_id) = true →
      (neighborhoodResponseV1 profileMap player_id allEntries).length = 6 ∧
      (neighborhoodResponseV2 profileMap player_id allEntries).length = 6) ∧
    (allEntries.any (fun e => e.player_id = player_id) = true →
      ∀ pr ∈ metricNames,
        (toMetricEntries pr.1 ((latestEntriesV2 allEntries).map Prod.snd)).find?
            (fun e => e.player_id = player_id) = none →
        ∃ r ∈ neighborhoodResponseV2 profileMap player_id allEntries,
          r.metric_type = pr.1 ∧ r.current_value = none ∧ r.percentile = none ∧
          r.next_best_value = none ∧ r.next_best_player = none) := by
  refine ⟨fun h => ?_, fun h => ?_, fun h pr hpr hnone => ?_⟩
  · constructor <;> simp [neighborhoodResponseV1, neighborhoodResponseV2, h]
  · constructor <;> simp [neighborhoodResponseV1, neighborhoodResponseV2, h, metricNames]
  · refine ⟨perMetricV2 profileMap player_id pr.1 pr.2
      ((latestEntriesV2 allEntries).map Prod.snd), ?_, ?_⟩
    · unfold neighborhoodResponseV2
      rw [if_pos h]
      exact List.mem_map.mpr ⟨pr, hpr, rfl⟩
    · unfold perMetricV2
      dsimp only
      rw [hnone]
      exact ⟨rfl, rfl, rfl, rfl, rfl⟩

/-- C10 witness: the empty-roster player gets `[]`; a player with one
vertical-jump entry gets six records including the all-null 30-yard-dash
record. -/
theorem C10_response_guard_witness :
    (neighborhoodResponseV1 (fun _ => none) "p" [] = [] ∧
      neighborhoodResponseV2 (fun _ => none) "p" [] = []) ∧
    ((neighborhoodResponseV1 (fun _ => none) "p"
        [⟨"p", "vertical_jump", 30, "cm", 0⟩]).length = 6 ∧
      (neighborhoodResponseV2 (fun _ => none) "p"
        [⟨"p", "vertical_jump", 30, "cm", 0⟩]).length = 6) ∧
    (∃ r ∈ neighborhoodResponseV2 (fun _ => none) "p"
        [⟨"p", "vertical_jump", 30, "cm", 0⟩],
      r.metric_type = "30yd_dash" ∧ r.current_value = none ∧ r.percentile = none ∧
        r.next_best_value = none ∧ r.next_best_player = none) := by
  refine ⟨(C10_response_guard (fun _ => none) "p" []).1 (by decide),
    (C10_response_guard (fun _ => none) "p" [⟨"p", "vertical_jump", 30, "cm", 0⟩]).2.1
      (by decide), ?_⟩
  exact (C10_response_guard (fun _ => none) "p" [⟨"p", "vertical_jump", 30, "cm", 0⟩]).2.2
    (by decide) ("30yd_dash", "30-Yard Dash") (by decide) (by decide)

end Renegades
